import Mathlib

/-!
Verification of the VoltDB index-scan executor core
(`src/ee/executors/indexscanexecutor.h`).

The central implemented routine is `IndexScanExecutor::getNextTuple`
(header lines 90-110), embedded below with explicit state passing:
the C++ out-parameter `TableTuple* tuple` becomes an input value plus a
result field, the mutated `IndexCursor` becomes an input/output value,
and the sequence of index operations invoked during the call is recorded
so that claims about which operations run can be stated.

The surrounding plan-execution machinery (`p_init`, `p_execute`, the
postfilter and output routing) is only declared in the header; those
parts are modelled from the specification where a claim needs them, and
each such definition is marked `Modelled from the spec:`.
-/

namespace VoltDB

/-- A row yielded by the index.  Rows are opaque to `getNextTuple`; a
natural number stands for a row reference. -/
abbrev Row := Nat

/-- `TableTuple` as used by `getNextTuple`: a possibly-null tuple
reference.  `none` models the null tuple. -/
abbrev TableTuple := Option Row

/-- `TableTuple::isNullTuple()`. -/
def isNullTuple (t : TableTuple) : Bool := t.isNone

/-- The `IndexLookupType` enumeration values referenced by the scan
(`INDEX_LOOKUP_TYPE_EQ`, `INDEX_LOOKUP_TYPE_GEO_CONTAINS` and the range
kinds). -/
inductive IndexLookupType
  | INVALID
  | EQ
  | GT
  | GTE
  | LT
  | LTE
  | GEO_CONTAINS
  deriving DecidableEq, Repr

/-- `IndexCursor` state as observed through the two iteration calls of
`TableIndex`: the remaining duplicate-key chain at the positioned key
(consumed by `nextValueAtKey`) and the remaining rows in index order
(consumed by `nextValue`). -/
structure IndexCursor where
  atKeyRows : List Row
  orderedRows : List Row
  deriving DecidableEq, Repr

/-- `TableIndex::nextValueAtKey(cursor)`: next row of the duplicate-key
chain at the positioned key, or the null tuple when the chain is
exhausted. -/
def nextValueAtKey (c : IndexCursor) : TableTuple × IndexCursor :=
  match c.atKeyRows with
  | [] => (none, c)
  | r :: rs => (some r, { c with atKeyRows := rs })

/-- `TableIndex::nextValue(cursor)`: next row in index order with no key
constraint, or the null tuple at exhaustion. -/
def nextValue (c : IndexCursor) : TableTuple × IndexCursor :=
  match c.orderedRows with
  | [] => (none, c)
  | r :: rs => (some r, { c with orderedRows := rs })

/-- Which index operation `getNextTuple` invoked, in order. -/
inductive IndexOp
  | atKey
  | next
  deriving DecidableEq, Repr

/-- Result of one `getNextTuple` call: the boolean return value, the
value left in the caller's `*tuple`, the advanced cursor, and the index
operations invoked during the call. -/
structure StepResult where
  ret : Bool
  tuple : TableTuple
  cursor : IndexCursor
  calls : List IndexOp
  deriving DecidableEq, Repr

/-- `IndexScanExecutor::getNextTuple` (header lines 90-110), embedded
with explicit state.  Control flow mirrors the source: for EQ or
GEO_CONTAINS the duplicate-chain probe `nextValueAtKey` runs first and a
non-null result returns `true` immediately; then, when the lookup type
is not EQ/GEO_CONTAINS or `activeNumOfSearchKeys == 0`, `nextValue`
overwrites the tuple; finally the negated null test of the tuple is
returned. -/
def getNextTuple (lookupType : IndexLookupType) (tuple : TableTuple)
    (cursor : IndexCursor) (activeNumOfSearchKeys : Int) : StepResult :=
  if lookupType = IndexLookupType.EQ ∨ lookupType = IndexLookupType.GEO_CONTAINS then
    if isNullTuple (nextValueAtKey cursor).1 = false then
      { ret := true
        tuple := (nextValueAtKey cursor).1
        cursor := (nextValueAtKey cursor).2
        calls := [IndexOp.atKey] }
    else if (lookupType ≠ IndexLookupType.EQ ∧ lookupType ≠ IndexLookupType.GEO_CONTAINS)
        ∨ activeNumOfSearchKeys = 0 then
      { ret := !isNullTuple (nextValue (nextValueAtKey cursor).2).1
        tuple := (nextValue (nextValueAtKey cursor).2).1
        cursor := (nextValue (nextValueAtKey cursor).2).2
        calls := [IndexOp.atKey, IndexOp.next] }
    else
      { ret := !isNullTuple (nextValueAtKey cursor).1
        tuple := (nextValueAtKey cursor).1
        cursor := (nextValueAtKey cursor).2
        calls := [IndexOp.atKey] }
  else if (lookupType ≠ IndexLookupType.EQ ∧ lookupType ≠ IndexLookupType.GEO_CONTAINS)
      ∨ activeNumOfSearchKeys = 0 then
    { ret := !isNullTuple (nextValue cursor).1
      tuple := (nextValue cursor).1
      cursor := (nextValue cursor).2
      calls := [IndexOp.next] }
  else
    { ret := !isNullTuple tuple
      tuple := tuple
      cursor := cursor
      calls := [] }

/-- The empty cursor: an index containing zero rows positions to an
exhausted duplicate chain and an exhausted ordered traversal. -/
def emptyCursor : IndexCursor := { atKeyRows := [], orderedRows := [] }

/-- Modelled from the spec: the scan loop of `p_execute` (body not under
src/), which repeatedly calls `getNextTuple` and stops when it returns
false (spec 4.3 step 3).  Fuel bounds the recursion. -/
def scanAll (lookupType : IndexLookupType) (activeNumOfSearchKeys : Int) :
    Nat → TableTuple → IndexCursor → List Row
  | 0, _, _ => []
  | Nat.succ fuel, t, c =>
    let r := getNextTuple lookupType t c activeNumOfSearchKeys
    if r.ret then
      match r.tuple with
      | some v => v :: scanAll lookupType activeNumOfSearchKeys fuel r.tuple r.cursor
      | none => []
    else []

/-- Modelled from the spec: the naive offset/limit behaviour of
`CountingPostfilter` (implementation not under src/) — skip the first
`offset` candidate rows one by one, then accept rows until `limit` of
them have been emitted (spec 4.4, "naive per-row offset counting"). -/
def naiveOffsetLimit : Nat → Nat → List Row → List Row
  | _, _, [] => []
  | Nat.succ o, l, _ :: rs => naiveOffsetLimit o l rs
  | 0, 0, _ :: _ => []
  | 0, Nat.succ l, r :: rs => r :: naiveOffsetLimit 0 l rs

/-- Modelled from the spec: the rank-based offset optimization
(`m_hasOffsetRankOptimization`, implementation not under src/) — skip
directly past `offset` rows by rank rather than counting each one, then
take `limit` rows (spec 4.4). -/
def rankOffsetLimit (o l : Nat) (rows : List Row) : List Row :=
  (rows.drop o).take l

/-- Parameter bindings (`NValueArray`): a list of scalar values. -/
abbrev NValueArray := List Int

/-- Modelled from the spec: a search-key expression evaluated against
the current parameter bindings with no current row (spec 6,
expression evaluator). -/
abbrev SearchKeyExpr := NValueArray → Int

/-- Modelled from the spec: the inline sub-plan of a plan, at most one
of an inline aggregate or an inline insert (spec 3, "optional inline
aggregate or insert sub-plan"). -/
inductive InlineSubPlan
  | agg
  | insert
  deriving DecidableEq, Repr

/-- Modelled from the spec: the output route resolved at initialization
— exactly one of result table, inline aggregate consumer, inline insert
consumer (spec 3, OutputRoute; header members `m_outputTable`,
`m_aggExec`, `m_insertExec`). -/
inductive OutputRoute
  | resultTable
  | aggConsumer
  | insertConsumer
  deriving DecidableEq, Repr

/-- Modelled from the spec: the index contents visible to the scan, as
an ordered list of (key, row) entries in index key order (spec 6,
Index interface boundary). -/
structure IndexData where
  entries : List (Int × Row)
  deriving DecidableEq, Repr

/-- Modelled from the spec: `positionForLookup` (spec 6) — position a
fresh cursor per lookup type: exact match / geo-contains set the
duplicate-key chain to the rows matching the key and the ordered
traversal to the rows beyond it; range lookups set only the ordered
traversal from the bound; a full scan traverses everything. -/
def positionForLookup (index : IndexData) (lookupType : IndexLookupType)
    (key : Int) : IndexCursor :=
  match lookupType with
  | IndexLookupType.EQ =>
    { atKeyRows := (index.entries.filter (fun e => e.1 = key)).map Prod.snd
      orderedRows := (index.entries.filter (fun e => key < e.1)).map Prod.snd }
  | IndexLookupType.GEO_CONTAINS =>
    { atKeyRows := (index.entries.filter (fun e => e.1 = key)).map Prod.snd
      orderedRows := (index.entries.filter (fun e => key < e.1)).map Prod.snd }
  | IndexLookupType.GT =>
    { atKeyRows := []
      orderedRows := (index.entries.filter (fun e => key < e.1)).map Prod.snd }
  | IndexLookupType.GTE =>
    { atKeyRows := []
      orderedRows := (index.entries.filter (fun e => key ≤ e.1)).map Prod.snd }
  | IndexLookupType.LT =>
    { atKeyRows := []
      orderedRows := (index.entries.filter (fun e => e.1 < key)).map Prod.snd }
  | IndexLookupType.LTE =>
    { atKeyRows := []
      orderedRows := (index.entries.filter (fun e => e.1 ≤ key)).map Prod.snd }
  | IndexLookupType.INVALID =>
    { atKeyRows := []
      orderedRows := index.entries.map Prod.snd }

/-- Modelled from the spec: the plan-shape information bound at
initialization (spec 3, PlanDescription): lookup type, search-key
expressions and at most one inline sub-plan. -/
structure PlanDescription where
  lookupType : IndexLookupType
  searchKeyExprs : List SearchKeyExpr
  inlineSubPlan : Option InlineSubPlan

/-- Executor state that persists across executions: the output route
chosen at initialization and the reused search-key scratch buffer
(spec 3, SearchKeyBuffer; header member `m_searchKeyBackingStore`). -/
structure ExecutorState where
  route : OutputRoute
  searchKeyBuffer : List Int
  deriving DecidableEq, Repr

/-- Modelled from the spec: `p_init` (body not under src/) — resolve
exactly one output route from the plan shape and allocate the
search-key buffer sized to the key schema (spec 4.1). -/
def p_init (plan : PlanDescription) : ExecutorState :=
  { route :=
      match plan.inlineSubPlan with
      | some InlineSubPlan.agg => OutputRoute.aggConsumer
      | some InlineSubPlan.insert => OutputRoute.insertConsumer
      | none => OutputRoute.resultTable
    searchKeyBuffer := List.replicate plan.searchKeyExprs.length 0 }

/-- Modelled from the spec: `p_execute` (body not under src/) —
re-evaluate the search-key expressions into the scratch buffer, create
a fresh cursor via `positionForLookup`, and drive the scan loop with
`getNextTuple` until it returns false (spec 4.2, 4.3).  Returns the
emitted row sequence and the updated executor state; the output route
is left untouched. -/
def p_execute (plan : PlanDescription) (index : IndexData)
    (st : ExecutorState) (params : NValueArray) : List Row × ExecutorState :=
  let key := plan.searchKeyExprs.map (fun e => e params)
  let cursor := positionForLookup index plan.lookupType (key.headD 0)
  let fuel := 2 * index.entries.length + 1
  (scanAll plan.lookupType (Int.ofNat plan.searchKeyExprs.length) fuel none cursor,
   { st with searchKeyBuffer := key })

/-- C1: for EQ or GEO_CONTAINS lookups with at least one active search
key, an exhausted duplicate-key chain (null `nextValueAtKey` result)
makes `getNextTuple` return false without invoking the unconstrained
`nextValue` — the scan ends instead of falling back to ordered
traversal. -/
theorem getNextTuple_exact_exhausted_ends (lt : IndexLookupType)
    (t0 : TableTuple) (c : IndexCursor) (n : Int)
    (hlt : lt = IndexLookupType.EQ ∨ lt = IndexLookupType.GEO_CONTAINS)
    (hn : 1 ≤ n)
    (hnull : isNullTuple (nextValueAtKey c).1 = true) :
    (getNextTuple lt t0 c n).ret = false ∧
    IndexOp.next ∉ (getNextTuple lt t0 c n).calls := by
  have hn0 : ¬ (n = 0) := by omega
  rcases hlt with h | h <;> subst h <;>
    simp [getNextTuple, hnull, hn0]

/-- Witness for C1 at a concrete input: EQ lookup, one active key, the
duplicate chain already exhausted while the ordered traversal still
holds a row. -/
theorem getNextTuple_exact_exhausted_ends_witness :
    ((IndexLookupType.EQ = IndexLookupType.EQ ∨
      IndexLookupType.EQ = IndexLookupType.GEO_CONTAINS) ∧
     (1 : Int) ≤ 1 ∧
     isNullTuple (nextValueAtKey { atKeyRows := [], orderedRows := [9] }).1 = true) ∧
    ((getNextTuple IndexLookupType.EQ none { atKeyRows := [], orderedRows := [9] } 1).ret = false ∧
     IndexOp.next ∉ (getNextTuple IndexLookupType.EQ none { atKeyRows := [], orderedRows := [9] } 1).calls) :=
  ⟨by decide,
   getNextTuple_exact_exhausted_ends IndexLookupType.EQ none
     { atKeyRows := [], orderedRows := [9] } 1 (by decide) (by decide) (by decide)⟩

/-- C2 counterexample: with lookup type EQ and zero active search keys
but a non-exhausted duplicate chain, the candidate tuple comes from
`nextValueAtKey`, not from `nextValue` — `nextValue` is never invoked
and its row differs from the candidate, refuting the claim's "or where
activeNumOfSearchKeys is zero" disjunct as stated. -/
theorem getNextTuple_zero_keys_counterexample :
    (getNextTuple IndexLookupType.EQ none { atKeyRows := [5], orderedRows := [7] } 0).tuple = some 5 ∧
    (getNextTuple IndexLookupType.EQ none { atKeyRows := [5], orderedRows := [7] } 0).tuple ≠
      (nextValue { atKeyRows := [5], orderedRows := [7] }).1 ∧
    IndexOp.next ∉ (getNextTuple IndexLookupType.EQ none { atKeyRows := [5], orderedRows := [7] } 0).calls := by
  decide

/-- C2 amended: the candidate is obtained via `nextValue` when the
lookup type is a range type, or when it is EQ/GEO_CONTAINS with zero
active keys and the duplicate-chain probe returned the null tuple (in
which case `nextValue` reads from the cursor the probe advanced). -/
theorem getNextTuple_range_uses_nextValue (lt : IndexLookupType)
    (t0 : TableTuple) (c : IndexCursor) (n : Int)
    (h : (lt ≠ IndexLookupType.EQ ∧ lt ≠ IndexLookupType.GEO_CONTAINS) ∨
         ((lt = IndexLookupType.EQ ∨ lt = IndexLookupType.GEO_CONTAINS) ∧
          n = 0 ∧ isNullTuple (nextValueAtKey c).1 = true)) :
    IndexOp.next ∈ (getNextTuple lt t0 c n).calls ∧
    ((lt ≠ IndexLookupType.EQ ∧ lt ≠ IndexLookupType.GEO_CONTAINS) →
      (getNextTuple lt t0 c n).tuple = (nextValue c).1) ∧
    ((lt = IndexLookupType.EQ ∨ lt = IndexLookupType.GEO_CONTAINS) →
      (getNextTuple lt t0 c n).tuple = (nextValue (nextValueAtKey c).2).1) := by
  rcases h with ⟨h1, h2⟩ | ⟨hlt, hn, hnull⟩
  · have hc : ¬ (lt = IndexLookupType.EQ ∨ lt = IndexLookupType.GEO_CONTAINS) := by
      tauto
    simp [getNextTuple, hc, h1, h2]
  · subst hn
    rcases hlt with h | h <;> subst h <;> simp [getNextTuple, hnull]

/-- Witness for the amended C2 at a concrete input: a GT range lookup
with three active keys takes its candidate from `nextValue`. -/
theorem getNextTuple_range_uses_nextValue_witness :
    ((IndexLookupType.GT ≠ IndexLookupType.EQ ∧
      IndexLookupType.GT ≠ IndexLookupType.GEO_CONTAINS) ∨
     ((IndexLookupType.GT = IndexLookupType.EQ ∨
       IndexLookupType.GT = IndexLookupType.GEO_CONTAINS) ∧
      (3 : Int) = 0 ∧
      isNullTuple (nextValueAtKey { atKeyRows := [5], orderedRows := [7] }).1 = true)) ∧
    (IndexOp.next ∈ (getNextTuple IndexLookupType.GT none { atKeyRows := [5], orderedRows := [7] } 3).calls ∧
     ((IndexLookupType.GT ≠ IndexLookupType.EQ ∧
       IndexLookupType.GT ≠ IndexLookupType.GEO_CONTAINS) →
       (getNextTuple IndexLookupType.GT none { atKeyRows := [5], orderedRows := [7] } 3).tuple =
         (nextValue { atKeyRows := [5], orderedRows := [7] }).1) ∧
     ((IndexLookupType.GT = IndexLookupType.EQ ∨
       IndexLookupType.GT = IndexLookupType.GEO_CONTAINS) →
       (getNextTuple IndexLookupType.GT none { atKeyRows := [5], orderedRows := [7] } 3).tuple =
         (nextValue (nextValueAtKey { atKeyRows := [5], orderedRows := [7] }).2).1)) :=
  ⟨by decide,
   getNextTuple_range_uses_nextValue IndexLookupType.GT none
     { atKeyRows := [5], orderedRows := [7] } 3 (by decide)⟩

/-- C3: for EQ or GEO_CONTAINS lookups the duplicate-chain probe
`nextValueAtKey` is the first index operation of the call, and when it
returns a non-null row the call returns true immediately with that row
and performs no further index operation. -/
theorem getNextTuple_exact_probes_at_key_first (lt : IndexLookupType)
    (t0 : TableTuple) (c : IndexCursor) (n : Int)
    (hlt : lt = IndexLookupType.EQ ∨ lt = IndexLookupType.GEO_CONTAINS) :
    (getNextTuple lt t0 c n).calls.head? = some IndexOp.atKey ∧
    (isNullTuple (nextValueAtKey c).1 = false →
      getNextTuple lt t0 c n =
        { ret := true
          tuple := (nextValueAtKey c).1
          cursor := (nextValueAtKey c).2
          calls := [IndexOp.atKey] }) := by
  rcases hlt with h | h <;> subst h <;>
    cases hnull : isNullTuple (nextValueAtKey c).1 <;>
    by_cases hn : n = 0 <;>
    simp [getNextTuple, hnull, hn]

/-- Witness for C3 at a concrete input: a GEO_CONTAINS lookup whose
duplicate chain still holds a row. -/
theorem getNextTuple_exact_probes_at_key_first_witness :
    (IndexLookupType.GEO_CONTAINS = IndexLookupType.EQ ∨
     IndexLookupType.GEO_CONTAINS = IndexLookupType.GEO_CONTAINS) ∧
    ((getNextTuple IndexLookupType.GEO_CONTAINS none { atKeyRows := [4], orderedRows := [7] } 2).calls.head? =
       some IndexOp.atKey ∧
     (isNullTuple (nextValueAtKey { atKeyRows := [4], orderedRows := [7] }).1 = false →
       getNextTuple IndexLookupType.GEO_CONTAINS none { atKeyRows := [4], orderedRows := [7] } 2 =
         { ret := true
           tuple := (nextValueAtKey { atKeyRows := [4], orderedRows := [7] }).1
           cursor := (nextValueAtKey { atKeyRows := [4], orderedRows := [7] }).2
           calls := [IndexOp.atKey] })) :=
  ⟨by decide,
   getNextTuple_exact_probes_at_key_first IndexLookupType.GEO_CONTAINS none
     { atKeyRows := [4], orderedRows := [7] } 2 (by decide)⟩

/-- C4: on every call, for every lookup type and active-key count, the
boolean returned by `getNextTuple` is the negated null-test of the
tuple left in the caller's out-parameter — true exactly when that tuple
is non-null. -/
theorem getNextTuple_ret_iff_nonnull (lt : IndexLookupType)
    (t0 : TableTuple) (c : IndexCursor) (n : Int) :
    (getNextTuple lt t0 c n).ret = !isNullTuple (getNextTuple lt t0 c n).tuple := by
  by_cases h1 : lt = IndexLookupType.EQ ∨ lt = IndexLookupType.GEO_CONTAINS
  · rcases h1 with h | h <;> subst h <;>
      cases hnull : isNullTuple (nextValueAtKey c).1 <;>
      by_cases hn : n = 0 <;>
      simp [getNextTuple, hnull, hn]
  · have h2 : (lt ≠ IndexLookupType.EQ ∧ lt ≠ IndexLookupType.GEO_CONTAINS) ∨ n = 0 :=
      Or.inl (by tauto)
    simp [getNextTuple, h1, h2]

/-- C5: for every offset and limit, the rank-based offset optimization
produces exactly the row sequence of naive per-row offset counting —
the optimization changes only work performed, never observable
output. -/
theorem rankOffsetLimit_eq_naive (o l : Nat) (rows : List Row) :
    rankOffsetLimit o l rows = naiveOffsetLimit o l rows := by
  induction rows generalizing o l with
  | nil => cases o <;> simp [rankOffsetLimit, naiveOffsetLimit]
  | cons r rs ih =>
    cases o with
    | zero =>
      cases l with
      | zero => simp [rankOffsetLimit, naiveOffsetLimit]
      | succ l =>
        simp only [rankOffsetLimit, naiveOffsetLimit, List.drop_zero, List.take_succ_cons,
          List.cons.injEq, true_and]
        simpa [rankOffsetLimit] using ih 0 l
    | succ o =>
      simp only [rankOffsetLimit, naiveOffsetLimit, List.drop_succ_cons]
      simpa [rankOffsetLimit] using ih o l

/-- C6: repeated executions of the same compiled plan with the same
parameter bindings against an unmodified index produce the same output
sequence — the second execution, run in the executor state the first
one left behind, emits identical rows. -/
theorem p_execute_idempotent (plan : PlanDescription) (index : IndexData)
    (st : ExecutorState) (params : NValueArray) :
    (p_execute plan index st params).1 =
    (p_execute plan index ((p_execute plan index st params).2) params).1 := rfl

/-- C7: initialization configures exactly one output route of the three
(mutually exclusive), and execution leaves the configured route
unchanged. -/
theorem outputRoute_exclusive_and_stable (plan : PlanDescription)
    (index : IndexData) (st : ExecutorState) (params : NValueArray) :
    (((p_init plan).route = OutputRoute.resultTable ∧
      (p_init plan).route ≠ OutputRoute.aggConsumer ∧
      (p_init plan).route ≠ OutputRoute.insertConsumer) ∨
     ((p_init plan).route ≠ OutputRoute.resultTable ∧
      (p_init plan).route = OutputRoute.aggConsumer ∧
      (p_init plan).route ≠ OutputRoute.insertConsumer) ∨
     ((p_init plan).route ≠ OutputRoute.resultTable ∧
      (p_init plan).route ≠ OutputRoute.aggConsumer ∧
      (p_init plan).route = OutputRoute.insertConsumer)) ∧
    (p_execute plan index st params).2.route = st.route := by
  constructor
  · cases h : plan.inlineSubPlan with
    | none => simp [p_init, h]
    | some s => cases s <;> simp [p_init, h]
  · rfl

/-- C8: over an index containing zero rows, the first `getNextTuple`
call returns false for every lookup type and key count, and the scan
loop emits zero rows. -/
theorem getNextTuple_empty_index (lt : IndexLookupType) (t0 : TableTuple)
    (n : Int) (fuel : Nat) :
    (getNextTuple lt t0 emptyCursor n).ret = false ∧
    scanAll lt n fuel t0 emptyCursor = [] := by
  have hret : ∀ (t : TableTuple), (getNextTuple lt t emptyCursor n).ret = false := by
    intro t
    by_cases h1 : lt = IndexLookupType.EQ ∨ lt = IndexLookupType.GEO_CONTAINS
    · rcases h1 with h | h <;> subst h <;>
        by_cases hn : n = 0 <;>
        simp [getNextTuple, hn, emptyCursor, nextValueAtKey, nextValue, isNullTuple]
    · have h2 : (lt ≠ IndexLookupType.EQ ∧ lt ≠ IndexLookupType.GEO_CONTAINS) ∨ n = 0 :=
        Or.inl (by tauto)
      simp [getNextTuple, h1, h2, emptyCursor, nextValue, isNullTuple]
  refine ⟨hret t0, ?_⟩
  cases fuel with
  | zero => rfl
  | succ f => simp [scanAll, hret t0]

/-- C9: with lookup type EQ or GEO_CONTAINS and zero active search
keys, the call probes the duplicate chain first; when that probe
returns the null tuple it additionally falls through to the
unconstrained `nextValue` within the same call, and when the probe
returns a row no fall-through happens. -/
theorem getNextTuple_exact_zero_keys_falls_through (lt : IndexLookupType)
    (t0 : TableTuple) (c : IndexCursor) (n : Int)
    (hlt : lt = IndexLookupType.EQ ∨ lt = IndexLookupType.GEO_CONTAINS)
    (hn : n = 0) :
    (isNullTuple (nextValueAtKey c).1 = true →
      (getNextTuple lt t0 c n).calls = [IndexOp.atKey, IndexOp.next] ∧
      (getNextTuple lt t0 c n).tuple = (nextValue (nextValueAtKey c).2).1) ∧
    (isNullTuple (nextValueAtKey c).1 = false →
      (getNextTuple lt t0 c n).calls = [IndexOp.atKey] ∧
      (getNextTuple lt t0 c n).tuple = (nextValueAtKey c).1) := by
  subst hn
  rcases hlt with h | h <;> subst h <;>
    cases hnull : isNullTuple (nextValueAtKey c).1 <;>
    simp [getNextTuple, hnull]

/-- Witness for C9 at a concrete input: EQ lookup, zero active keys,
exhausted duplicate chain, one row left in ordered traversal. -/
theorem getNextTuple_exact_zero_keys_falls_through_witness :
    ((IndexLookupType.EQ = IndexLookupType.EQ ∨
      IndexLookupType.EQ = IndexLookupType.GEO_CONTAINS) ∧
     (0 : Int) = 0) ∧
    ((isNullTuple (nextValueAtKey { atKeyRows := [], orderedRows := [5] }).1 = true →
       (getNextTuple IndexLookupType.EQ none { atKeyRows := [], orderedRows := [5] } 0).calls =
         [IndexOp.atKey, IndexOp.next] ∧
       (getNextTuple IndexLookupType.EQ none { atKeyRows := [], orderedRows := [5] } 0).tuple =
         (nextValue (nextValueAtKey { atKeyRows := [], orderedRows := [5] }).2).1) ∧
     (isNullTuple (nextValueAtKey { atKeyRows := [], orderedRows := [5] }).1 = false →
       (getNextTuple IndexLookupType.EQ none { atKeyRows := [], orderedRows := [5] } 0).calls =
         [IndexOp.atKey] ∧
       (getNextTuple IndexLookupType.EQ none { atKeyRows := [], orderedRows := [5] } 0).tuple =
         (nextValueAtKey { atKeyRows := [], orderedRows := [5] }).1)) :=
  ⟨by decide,
   getNextTuple_exact_zero_keys_falls_through IndexLookupType.EQ none
     { atKeyRows := [], orderedRows := [5] } 0 (by decide) (by decide)⟩

/-- C10: on every control path the out-parameter tuple is written from
an index operation before the function returns — the result never
depends on the tuple value the caller passed in, and the tuple left
behind is the result of `nextValueAtKey`, of `nextValue` on the
incoming cursor, or of `nextValue` on the cursor the probe advanced. -/
theorem getNextTuple_always_assigns (lt : IndexLookupType)
    (t0 t1 : TableTuple) (c : IndexCursor) (n : Int) :
    getNextTuple lt t0 c n = getNextTuple lt t1 c n ∧
    ((getNextTuple lt t0 c n).tuple = (nextValueAtKey c).1 ∨
     (getNextTuple lt t0 c n).tuple = (nextValue c).1 ∨
     (getNextTuple lt t0 c n).tuple = (nextValue (nextValueAtKey c).2).1) := by
  by_cases h1 : lt = IndexLookupType.EQ ∨ lt = IndexLookupType.GEO_CONTAINS
  · rcases h1 with h | h <;> subst h <;>
      cases hnull : isNullTuple (nextValueAtKey c).1 <;>
      by_cases hn : n = 0 <;>
      simp [getNextTuple, hnull, hn]
  · have h2 : (lt ≠ IndexLookupType.EQ ∧ lt ≠ IndexLookupType.GEO_CONTAINS) ∨ n = 0 :=
      Or.inl (by tauto)
    simp [getNextTuple, h1, h2]

end VoltDB
